import Mathlib

/-!
Verification development for the `monday_exporter` package: a shallow
embedding in Lean 4 of its board-fetch pagination protocol
(`src/monday_exporter/api.py`), its column-value renderer and workbook
builder (`src/monday_exporter/excel.py`), and its domain models
(`src/monday_exporter/models.py`), together with theorems settling the
specification claims about them.

Conventions of the embedding:
  * Python `Optional[T]` becomes `Option T`; `try/except` around a
    fallible operation becomes an `Option`-returning function.
  * Python floats are modelled exactly: a parsed float is either a
    rational number, an infinity, or NaN (`PyFloat`).
  * `datetime` values are modelled as a record of calendar/clock fields.
  * JSON values decoded by `json.loads` are modelled by the inductive
    `PyVal`, with `jsonLoads` an executable parser of the JSON grammar
    (string escapes cover the standard single-character escapes and
    `\u` hex escapes without surrogate pairing; numbers are modelled
    as exact rationals).
-/

/-- A `datetime.datetime` value (naive; the claims under study never
compare time zones). -/
structure DateTime where
  year : Nat
  month : Nat
  day : Nat
  hour : Nat
  minute : Nat
  second : Nat
deriving DecidableEq, Repr

/-- A Python value produced by `json.loads`, or a plain string: the
possible results of `ColumnValue.parsed_value`. -/
inductive PyVal where
  | null : PyVal
  | bool (b : Bool) : PyVal
  | num (q : Rat) : PyVal
  | str (s : String) : PyVal
  | list (xs : List PyVal) : PyVal
  | dict (kvs : List (String × PyVal)) : PyVal
deriving Repr

/-- Python truthiness (`if x:`) of a `PyVal`. -/
def PyVal.truthy : PyVal → Bool
  | .null => false
  | .bool b => b
  | .num q => q ≠ 0
  | .str s => s ≠ ""
  | .list xs => !xs.isEmpty
  | .dict kvs => !kvs.isEmpty

/-- Python `dict.get(key)`: the first binding of `key`, if any. -/
def PyVal.dictGet (kvs : List (String × PyVal)) (key : String) : Option PyVal :=
  (kvs.find? (fun kv => kv.1 == key)).map Prod.snd

namespace Json

/-- JSON whitespace characters. -/
def isWs (c : Char) : Bool :=
  c == ' ' || c == '\t' || c == '\n' || c == '\r'

/-- Drop leading JSON whitespace. -/
def skipWs : List Char → List Char
  | c :: rest => if isWs c then skipWs rest else c :: rest
  | [] => []

/-- Hex digit value. -/
def hexVal (c : Char) : Option Nat :=
  if '0' ≤ c ∧ c ≤ '9' then some (c.toNat - '0'.toNat)
  else if 'a' ≤ c ∧ c ≤ 'f' then some (c.toNat - 'a'.toNat + 10)
  else if 'A' ≤ c ∧ c ≤ 'F' then some (c.toNat - 'A'.toNat + 10)
  else none

/-- Prepend a decoded character to the result of parsing the rest of a
string body. -/
def consStr (s : String) (r : Option (String × List Char)) : Option (String × List Char) :=
  r.map (fun (tail, rest) => (s ++ tail, rest))

/-- Parse the body of a JSON string literal (the opening quote already
consumed), returning the decoded string and the remaining input. -/
def parseStringBody : List Char → Option (String × List Char)
  | [] => none
  | '"' :: rest => some ("", rest)
  | '\\' :: '"' :: rest => consStr "\"" (parseStringBody rest)
  | '\\' :: '\\' :: rest => consStr "\\" (parseStringBody rest)
  | '\\' :: '/' :: rest => consStr "/" (parseStringBody rest)
  | '\\' :: 'b' :: rest => consStr "\x08" (parseStringBody rest)
  | '\\' :: 'f' :: rest => consStr "\x0c" (parseStringBody rest)
  | '\\' :: 'n' :: rest => consStr "\n" (parseStringBody rest)
  | '\\' :: 'r' :: rest => consStr "\r" (parseStringBody rest)
  | '\\' :: 't' :: rest => consStr "\t" (parseStringBody rest)
  | '\\' :: 'u' :: h1 :: h2 :: h3 :: h4 :: rest =>
    match hexVal h1, hexVal h2, hexVal h3, hexVal h4 with
    | some v1, some v2, some v3, some v4 =>
      consStr (String.singleton (Char.ofNat (((v1 * 16 + v2) * 16 + v3) * 16 + v4)))
        (parseStringBody rest)
    | _, _, _, _ => none
  | '\\' :: _ => none
  | c :: rest => consStr (String.singleton c) (parseStringBody rest)

/-- Parse a run of decimal digits, returning their value, their count and
the remaining input; fails on an empty run. -/
def parseDigits (cs : List Char) : Option (Nat × Nat × List Char) :=
  go cs 0 0
where
  go : List Char → Nat → Nat → Option (Nat × Nat × List Char)
    | c :: rest, acc, n =>
      if c.isDigit then go rest (acc * 10 + (c.toNat - '0'.toNat)) (n + 1)
      else if n = 0 then none else some (acc, n, c :: rest)
    | [], acc, n => if n = 0 then none else some (acc, n, [])

/-- Parse a JSON number per the JSON grammar (`-?(0|[1-9]\d*)` with
optional fraction and exponent), as an exact rational. -/
def parseNumber (cs : List Char) : Option (Rat × List Char) := do
  let (neg, cs) := match cs with
    | '-' :: rest => (true, rest)
    | _ => (false, cs)
  let (intPart, intLen, cs) ← parseDigits cs
  -- JSON forbids redundant leading zeros.
  if intLen > 1 ∧ intPart < 10 ^ (intLen - 1) then none else
  let (fracPart, fracLen, cs) ←
    match cs with
    | '.' :: rest =>
      (parseDigits rest).map (fun (v, n, r) => (v, n, r))
    | _ => some (0, 0, cs)
  let (expVal, cs) ←
    match cs with
    | e :: rest =>
      if e == 'e' ∨ e == 'E' then
        let (esign, rest) := match rest with
          | '+' :: r => ((1 : Int), r)
          | '-' :: r => ((-1 : Int), r)
          | r => ((1 : Int), r)
        (parseDigits rest).map (fun (v, _, r) => (esign * (v : Int), r))
      else some ((0 : Int), e :: rest)
    | [] => some ((0 : Int), [])
  let mantissa : Int := (intPart * 10 ^ fracLen + fracPart : Nat)
  let signed : Int := if neg then -mantissa else mantissa
  let e : Int := expVal - (fracLen : Int)
  let q : Rat := if 0 ≤ e then mkRat (signed * 10 ^ e.toNat) 1 else mkRat signed (10 ^ (-e).toNat)
  some (q, cs)

mutual

/-- Parse one JSON value; `fuel` bounds the recursion depth. -/
def parseValue : Nat → List Char → Option (PyVal × List Char)
  | 0, _ => none
  | fuel + 1, cs =>
    match skipWs cs with
    | 'n' :: 'u' :: 'l' :: 'l' :: rest => some (.null, rest)
    | 't' :: 'r' :: 'u' :: 'e' :: rest => some (.bool true, rest)
    | 'f' :: 'a' :: 'l' :: 's' :: 'e' :: rest => some (.bool false, rest)
    | '"' :: rest => (parseStringBody rest).map (fun (s, r) => (.str s, r))
    | '[' :: rest =>
      (match skipWs rest with
       | ']' :: rest' => some (.list [], rest')
       | rest' => (parseElems fuel rest').map (fun (xs, r) => (.list xs, r)))
    | '{' :: rest =>
      (match skipWs rest with
       | '}' :: rest' => some (.dict [], rest')
       | rest' => (parseMembers fuel rest').map (fun (kvs, r) => (.dict kvs, r)))
    | cs' => (parseNumber cs').map (fun (q, r) => (.num q, r))

/-- Parse one-or-more comma-separated array elements up to `]`. -/
def parseElems : Nat → List Char → Option (List PyVal × List Char)
  | 0, _ => none
  | fuel + 1, cs => do
    let (v, rest) ← parseValue fuel cs
    match skipWs rest with
    | ',' :: rest' => (parseElems fuel rest').map (fun (xs, r) => (v :: xs, r))
    | ']' :: rest' => some ([v], rest')
    | _ => none

/-- Parse one-or-more comma-separated `"key": value` members up to `}`. -/
def parseMembers : Nat → List Char → Option (List (String × PyVal) × List Char)
  | 0, _ => none
  | fuel + 1, cs => do
    match skipWs cs with
    | '"' :: rest => do
      let (key, rest) ← parseStringBody rest
      match skipWs rest with
      | ':' :: rest' => do
        let (v, rest'') ← parseValue fuel rest'
        match skipWs rest'' with
        | ',' :: rest3 => (parseMembers fuel rest3).map (fun (kvs, r) => ((key, v) :: kvs, r))
        | '}' :: rest3 => some ([(key, v)], rest3)
        | _ => none
      | _ => none
    | _ => none

end

end Json

/-- Model of `json.loads`: decode a complete JSON document, rejecting trailing
garbage. The fuel `2 * length + 2` dominates the recursion depth, which
consumes at least one input character per two fuel units. -/
def jsonLoads (s : String) : Option PyVal :=
  match Json.parseValue (2 * s.length + 2) s.toList with
  | some (v, rest) => if Json.skipWs rest = [] then some v else none
  | none => none

/-! ## Domain models (`models.py`) -/

/-- Model of `BoardColumn`: a board column. -/
structure BoardColumn where
  id : String
  title : String
  type : String
deriving DecidableEq, Repr

/-- Model of `ColumnValue`: a column value of an item. `text` defaults to `""`;
`value` is the optional raw JSON payload. -/
structure ColumnValue where
  id : String
  text : String := ""
  title : String
  type : String
  value : Option String := none
deriving DecidableEq, Repr

/-- Model of `ColumnValue.parsed_value`: JSON-decoded `value` when possible,
otherwise the raw display text (`if not self.value: return self.text`,
then `json.loads` with fallback to the text on decode failure). -/
def ColumnValue.parsed_value (cv : ColumnValue) : PyVal :=
  match cv.value with
  | none => .str cv.text
  | some v =>
    if v = "" then .str cv.text
    else match jsonLoads v with
      | some j => j
      | none => .str cv.text

/-- Model of `Group`: a group of items (named `BoardGroup` here because `Group`
is taken by the ambient mathematical library). -/
structure BoardGroup where
  id : String
  title : String
  color : Option String := none
  position : Option String := none
deriving DecidableEq, Repr

/-- Model of `Person`: a user; both fields may be absent. -/
structure Person where
  id : Option Int := none
  name : Option String := none
deriving DecidableEq, Repr

/-- Model of `Item`: an item (row) on a board, with optionally nested subitems
(recursive, hence an inductive rather than a structure). -/
inductive Item where
  | mk
    (id : String)
    (name : String)
    (group : Option BoardGroup)
    (creator : Option Person)
    (created_at : Option DateTime)
    (updated_at : Option DateTime)
    (column_values : List ColumnValue)
    (subitems : Option (List Item))

def Item.id : Item → String
  | .mk i _ _ _ _ _ _ _ => i

def Item.name : Item → String
  | .mk _ n _ _ _ _ _ _ => n

def Item.group : Item → Option BoardGroup
  | .mk _ _ g _ _ _ _ _ => g

def Item.creator : Item → Option Person
  | .mk _ _ _ c _ _ _ _ => c

def Item.created_at : Item → Option DateTime
  | .mk _ _ _ _ c _ _ _ => c

def Item.updated_at : Item → Option DateTime
  | .mk _ _ _ _ _ u _ _ => u

def Item.column_values : Item → List ColumnValue
  | .mk _ _ _ _ _ _ cvs _ => cvs

def Item.subitems : Item → Option (List Item)
  | .mk _ _ _ _ _ _ _ s => s

/-- Model of `Item.column_value_by_id`: the first column value with the given id. -/
def Item.column_value_by_id (it : Item) (column_id : String) : Option ColumnValue :=
  it.column_values.find? (fun cv => cv.id == column_id)

/-- Model of `Board`: a board snapshot. -/
structure Board where
  id : String
  name : String
  description : Option String := none
  state : Option String := none
  columns : List BoardColumn := []
  groups : List BoardGroup := []
  items : List Item := []

/-- Model of `Board.ordered_columns`: columns in the order returned by the API. -/
def Board.ordered_columns (b : Board) : List BoardColumn :=
  b.columns

/-! ## Python `float()` parsing, modelled exactly -/

/-- A value returned by Python's `float()`: finite (kept exact as a
rational), signed infinity, or NaN. -/
inductive PyFloat where
  | finite (q : Rat)
  | inf (neg : Bool)
  | nan
deriving DecidableEq, Repr

/-- ASCII whitespace stripped by `float()` around its argument. -/
def pyWsChar (c : Char) : Bool :=
  c == ' ' || c == '\t' || c == '\n' || c == '\r' || c == '\x0b' || c == '\x0c'

/-- Strip leading and trailing whitespace. -/
def trimWs (cs : List Char) : List Char :=
  ((cs.dropWhile pyWsChar).reverse.dropWhile pyWsChar).reverse

/-- Parse a digit run in which single underscores may separate digits
(`1_000`), returning (value, digit count, rest); fails on an empty run. -/
def parseUDigits (cs : List Char) : Option (Nat × Nat × List Char) :=
  match cs with
  | c :: rest =>
    if c.isDigit then some (go rest (c.toNat - '0'.toNat) 1) else none
  | [] => none
where
  go : List Char → Nat → Nat → (Nat × Nat × List Char)
    | '_' :: c :: rest, acc, n =>
      if c.isDigit then go rest (acc * 10 + (c.toNat - '0'.toNat)) (n + 1)
      else (acc, n, '_' :: c :: rest)
    | c :: rest, acc, n =>
      if c.isDigit then go rest (acc * 10 + (c.toNat - '0'.toNat)) (n + 1)
      else (acc, n, c :: rest)
    | [], acc, n => (acc, n, [])

/-- Parse the mantissa of a float literal: `digits[.digits]`, `digits.`,
or `.digits`; returns (mantissa digits as a Nat, number of fractional
digits, rest). -/
def parseMantissa (cs : List Char) : Option (Nat × Nat × List Char) :=
  match cs with
  | '.' :: rest => parseUDigits rest
  | _ => do
    let (i, _, rest) ← parseUDigits cs
    match rest with
    | '.' :: rest2 =>
      match parseUDigits rest2 with
      | some (f, n, r) => some (i * 10 ^ n + f, n, r)
      | none => some (i, 0, rest2)
    | _ => some (i, 0, rest)

/-- Parse an optional exponent `e|E [+|-] digits`. -/
def parseExponent (cs : List Char) : Option (Int × List Char) :=
  match cs with
  | e :: rest =>
    if e == 'e' ∨ e == 'E' then
      let (esign, rest2) : Int × List Char :=
        match rest with
        | '+' :: r => (1, r)
        | '-' :: r => (-1, r)
        | r => (1, r)
      (parseUDigits rest2).map (fun (v, _, r) => (esign * (v : Int), r))
    else some (0, e :: rest)
  | [] => some (0, [])

/-- ASCII lowercasing, as `float()` applies when recognising the words
`inf`, `infinity` and `nan`. -/
def asciiLower (c : Char) : Char :=
  if 'A' ≤ c ∧ c ≤ 'Z' then Char.ofNat (c.toNat + 32) else c

/-- Python's `float(s)`: strip whitespace, optional sign, then either
`inf`/`infinity`/`nan` (case-insensitive) or a decimal literal with
optional underscores between digits and an optional exponent. Returns
`none` exactly when `float` raises `ValueError`. (The sign of a signed
zero is not tracked: the finite value is an exact rational.) -/
def pyFloat (s : String) : Option PyFloat :=
  let cs := trimWs s.toList
  let (neg, cs) : Bool × List Char :=
    match cs with
    | '+' :: rest => (false, rest)
    | '-' :: rest => (true, rest)
    | _ => (false, cs)
  let w := cs.map asciiLower
  if w = "inf".toList ∨ w = "infinity".toList then some (.inf neg)
  else if w = "nan".toList then some .nan
  else do
    let (m, dec, rest) ← parseMantissa cs
    let (ex, rest2) ← parseExponent rest
    if rest2 = [] then
      let sm : Int := if neg then -(m : Int) else (m : Int)
      let e : Int := ex - (dec : Int)
      let mag : Rat :=
        if 0 ≤ e then mkRat (sm * 10 ^ e.toNat) 1 else mkRat sm (10 ^ (-e).toNat)
      some (.finite mag)
    else none

/-! ## Date parsing (`dateutil` calls made by `excel.py`) -/

/-- Days in a month of the proleptic Gregorian calendar. -/
def daysInMonth (y m : Nat) : Nat :=
  if m = 2 then (if y % 4 = 0 ∧ (y % 100 ≠ 0 ∨ y % 400 = 0) then 29 else 28)
  else if m = 4 ∨ m = 6 ∨ m = 9 ∨ m = 11 then 30
  else 31

/-- Two ASCII digits as a number. -/
def digit2 (a b : Char) : Option Nat :=
  if a.isDigit ∧ b.isDigit then some ((a.toNat - '0'.toNat) * 10 + (b.toNat - '0'.toNat))
  else none

/-- Model of the external `dateutil.parser.isoparse`, restricted to the
`YYYY-MM-DD[<sep>HH:MM[:SS]]` forms (the only ISO shapes this
repository's payloads exercise); rejects calendar-invalid dates, as the
library does. -/
def isoParseStr (s : String) : Option DateTime :=
  match s.toList with
  | y1 :: y2 :: y3 :: y4 :: '-' :: m1 :: m2 :: '-' :: d1 :: d2 :: rest => do
    let yh ← digit2 y1 y2
    let yl ← digit2 y3 y4
    let mo ← digit2 m1 m2
    let d ← digit2 d1 d2
    let y := yh * 100 + yl
    if 1 ≤ mo ∧ mo ≤ 12 ∧ 1 ≤ d ∧ d ≤ daysInMonth y mo then
      match rest with
      | [] => some ⟨y, mo, d, 0, 0, 0⟩
      | _ :: h1 :: h2 :: ':' :: mi1 :: mi2 :: rest2 => do
        let hh ← digit2 h1 h2
        let mi ← digit2 mi1 mi2
        if hh < 24 ∧ mi < 60 then
          match rest2 with
          | [] => some ⟨y, mo, d, hh, mi, 0⟩
          | ':' :: s1 :: s2 :: [] => do
            let ss ← digit2 s1 s2
            if ss < 60 then some ⟨y, mo, d, hh, mi, ss⟩ else none
          | _ => none
        else none
      | _ => none
    else none
  | _ => none

/-- Model of the external `dateutil.parser.parse` free-form parser as
applied to display text; modelled on ISO-shaped inputs, the only forms
the claims exercise. -/
def dateutilParse (s : String) : Option DateTime :=
  isoParseStr s

/-! ## Column-value rendering (`excel.py`) -/

/-- A spreadsheet cell value produced by the renderer or the sheet
builders: a string, a Python float, a boolean, a datetime, or an integer
count. -/
inductive CellValue where
  | s (t : String)
  | f (v : PyFloat)
  | b (v : Bool)
  | dt (d : DateTime)
  | n (k : Nat)
deriving DecidableEq, Repr

/-- Model of `_parse_date`: structured decode of the raw payload's `date` field
parsed as ISO when that field is present and truthy (returning `none` on
its failure without ever reaching the text parse), otherwise a free-form
parse of the display text when non-empty. -/
def parseDate (cv : ColumnValue) : Option DateTime :=
  let textFallback : Option DateTime :=
    if cv.text ≠ "" then dateutilParse cv.text else none
  match cv.parsed_value with
  | .dict kvs =>
    match PyVal.dictGet kvs "date" with
    | some dp =>
      if dp.truthy then
        match dp with
        | .str ds => isoParseStr ds
        | _ => none
      else textFallback
    | none => textFallback
  | _ => textFallback

/-- Replace every occurrence of a single character by a string
(`str.replace` with a one-character pattern, the only form `excel.py`
uses). -/
def replaceChar (target : Char) (rep : List Char) : List Char → List Char
  | [] => []
  | c :: rest =>
    if c = target then rep ++ replaceChar target rep rest
    else c :: replaceChar target rep rest

/-- Python `s.replace(target, rep)` for a one-character target. -/
def pyReplace1 (s : String) (target : Char) (rep : String) : String :=
  String.mk (replaceChar target rep.toList s.toList)

/-- Model of `_render_column_value`: dispatch on the column type, returning the
cell value and an optional display hint. -/
def renderColumnValue (column : BoardColumn) (column_value : Option ColumnValue) :
    CellValue × Option String :=
  match column_value with
  | none => (.s "", none)
  | some cv =>
    if column.type = "date" then
      match parseDate cv with
      | some d => (.dt d, some "date")
      | none => (.s cv.text, none)
    else if column.type = "numbers" ∨ column.type = "numeric" then
      match pyFloat (pyReplace1 cv.text ',' "") with
      | some v => (.f v, none)
      | none => (.s cv.text, none)
    else if column.type = "checkbox" then
      let decoded : Option PyVal :=
        match cv.parsed_value with
        | .dict kvs => PyVal.dictGet kvs "checked"
        | other => some other
      match decoded with
      | some (.bool b) => (.b b, none)
      | _ => (.s cv.text, none)
    else if column.type = "people" then
      (.s (pyReplace1 cv.text '\n' ", "), none)
    else
      (.s cv.text, none)

/-! ## Sheet building (`excel.py`) -/

/-- Characters inside the character class actually compiled from
`r"[\\/*?:\\[\\]]"`. The doubled escapes in the raw string make the
class close at the `]` following the second escaped backslash, so the
class holds `\ / * ? : [` and the compiled pattern is that class
followed by a LITERAL `]`. -/
def sanitizeClassChar (c : Char) : Bool :=
  c == '\\' || c == '/' || c == '*' || c == '?' || c == ':' || c == '['

/-- The left-to-right, non-overlapping substitution performed by
`re.sub(r"[\\/*?:\\[\\]]", "_", title)`: each two-character occurrence of
(class character, `]`) becomes a single `_`. -/
def sanitizeSub : List Char → List Char
  | c :: ']' :: rest =>
    if sanitizeClassChar c then '_' :: sanitizeSub rest
    else c :: sanitizeSub (']' :: rest)
  | c :: rest => c :: sanitizeSub rest
  | [] => []

/-- Model of `_sanitize_sheet_title`: the substitution above, then `[:31]`. -/
def sanitizeSheetTitle (title : String) : String :=
  String.mk ((sanitizeSub title.toList).take 31)

/-- The items-sheet title assigned by `build_workbook`:
`_sanitize_sheet_title(board.name) or "Board"`. -/
def workbookSheetTitle (b : Board) : String :=
  let t := sanitizeSheetTitle b.name
  if t = "" then "Board" else t

/-- The fixed leading headers of the items sheet. -/
def fixedHeaders : List String :=
  ["Item ID", "Item Name", "Group", "Group Color", "Creator", "Created At", "Updated At"]

/-- The full header row: fixed headers then one per board column. -/
def headersFor (b : Board) : List String :=
  fixedHeaders ++ b.ordered_columns.map (fun c => c.title)

/-- Model of `_build_item_row`: the fixed cells, then one rendered cell per
column; `column_formats` records (0-based index, tag) for datetime
created/updated cells and for rendered cells with a truthy format tag. -/
def buildItemRow (item : Item) (columns : List BoardColumn) :
    List CellValue × List (Nat × String) :=
  let base : List CellValue := [
    .s item.id,
    .s item.name,
    .s (match item.group with | some g => g.title | none => ""),
    .s (match item.group with
        | some g => (match g.color with
                     | some c => if c = "" then "" else c
                     | none => "")
        | none => ""),
    .s (match item.creator with
        | some p => (match p.name with
                     | some nm => if nm = "" then "" else nm
                     | none => "")
        | none => ""),
    (match item.created_at with | some d => .dt d | none => .s ""),
    (match item.updated_at with | some d => .dt d | none => .s "")]
  let fmts : List (Nat × String) :=
    (match item.created_at with | some _ => [(5, "date")] | none => []) ++
    (match item.updated_at with | some _ => [(6, "date")] | none => [])
  columns.foldl
    (fun (acc : List CellValue × List (Nat × String)) col =>
      let cv := item.column_value_by_id col.id
      let (v, tag) := renderColumnValue col cv
      let fmts' :=
        match tag with
        | some t => if t = "" then acc.2 else acc.2 ++ [(acc.1.length, t)]
        | none => acc.2
      (acc.1 ++ [v], fmts'))
    (base, fmts)

/-- The rows appended to the items sheet by `_populate_items_sheet`: the
header row, then one row per item. -/
def itemsSheetRows (b : Board) : List (List CellValue) :=
  (headersFor b).map .s :: b.items.map (fun it => (buildItemRow it b.ordered_columns).1)

/-- The key/value rows appended to the summary sheet by
`_populate_summary_sheet`, given the build-time timestamp. -/
def summaryRows (b : Board) (exportedAt : DateTime) : List (String × CellValue) :=
  [("Property", .s "Value"),
   ("Board Name", .s b.name),
   ("Board ID", .s b.id),
   ("Item Count", .n b.items.length),
   ("Group Count", .n b.groups.length),
   ("Column Count", .n b.columns.length)] ++
  (match b.description with
   | some d => if d = "" then [] else [("Description", .s d)]
   | none => []) ++
  [("Exported At", .dt exportedAt)]

/-- The value cell of the first summary row with the given key. -/
def summaryValue (b : Board) (exportedAt : DateTime) (key : String) : Option CellValue :=
  ((summaryRows b exportedAt).find? (fun r => r.1 == key)).map Prod.snd

/-! ## Column widths (`_populate_items_sheet`, lines 81-84 and 104-108) -/

/-- Python `str.splitlines` restricted to the `\n`, `\r\n`, `\r`
terminators. -/
def splitlinesAux : List Char → List Char → List String
  | '\r' :: '\n' :: rest, acc => String.mk acc.reverse :: splitlinesAux rest []
  | '\n' :: rest, acc => String.mk acc.reverse :: splitlinesAux rest []
  | '\r' :: rest, acc => String.mk acc.reverse :: splitlinesAux rest []
  | c :: rest, acc => splitlinesAux rest (c :: acc)
  | [], acc => if acc.isEmpty then [] else [String.mk acc.reverse]

def pySplitlines (s : String) : List String :=
  splitlinesAux s.toList []

/-- Model of `_calculate_display_width` on a string cell value: the longest line
(0 when there are no lines) plus 2. A datetime cell instead measures a
fixed 22. -/
def calcDisplayWidthStr (t : String) : Nat :=
  ((pySplitlines t).map String.length).foldl max 0 + 2

/-- The header-derived initial column width:
`max(len(cell.value or ""), 12)` (line 84). -/
def initColWidth (header : String) : Nat :=
  max header.length 12

/-- The per-item-row width update (lines 106-108): assign
`min(display_length, 48)` when the display length exceeds the previous
width, else keep the previous width. (The `or 10` default of line 106 is
unreachable here: every tracked column starts at the header width
≥ 12.) -/
def widthStep (w d : Nat) : Nat :=
  if d > w then min d 48 else w

/-- The successive widths of one column: the header width followed by
the width after each item row, given each row's display length. -/
def widthSeq (header : String) (ds : List Nat) : List Nat :=
  List.scanl widthStep (initColWidth header) ds

/-! ## Pagination protocol (`api.py`) -/

/-- One items-phase response carrying a board envelope: the decoded
`items_page` items and its `cursor` (`none` models JSON null/absent). -/
structure ItemsPage where
  items : List Item
  cursor : Option String

/-- The cursor test `if not cursor: break` — the cursor is falsy when absent or empty. -/
def cursorDone : Option String → Bool
  | none => true
  | some s => s == ""

/-- A response terminates the loop when its `boards` payload is empty
(`none` here) or its cursor is falsy. -/
def isTerminal : Option ItemsPage → Bool
  | none => true
  | some pg => cursorDone pg.cursor

/-- The items a response carries (none when the board envelope is
absent). -/
def pageItems : Option ItemsPage → List Item
  | none => []
  | some pg => pg.items

/-- The items loop of `fetch_board`, as a function of the trace of
successive items-phase responses: returns the accumulated items and the
number of requests issued, or `none` when the supplied trace ends before
the loop's termination condition is reached (the real loop would issue a
further request). Note that a response with no board envelope terminates
WITHOUT appending its (nonexistent) items, while a response with a falsy
cursor appends its items first. -/
def fetchItemsTrace : List (Option ItemsPage) → Option (List Item × Nat)
  | [] => none
  | page :: rest =>
    match page with
    | none => some ([], 1)
    | some pg =>
      if cursorDone pg.cursor then some (pg.items, 1)
      else
        match fetchItemsTrace rest with
        | some (is, n) => some (pg.items ++ is, n + 1)
        | none => none

/-- Model of `fetch_board`, as a function of the response trace: the metadata
response's board list and the items-phase responses. Yields the outcome
together with the number of items-phase requests issued. An empty board
list raises (`.error`) before any items request. -/
def fetchBoardTrace (board_id : Int) (metaBoards : List Board)
    (pages : List (Option ItemsPage)) : Option ((Except String Board) × Nat) :=
  match metaBoards with
  | [] => some (.error s!"No board found for id {board_id}", 0)
  | b :: _ =>
    (fetchItemsTrace pages).map (fun (is, n) => (.ok { b with items := is }, n))

/-! ## Shared concrete sample data for witnesses -/

/-- A minimal item with the given id/name. -/
def sampleItem (nm : String) : Item :=
  .mk nm nm none none none none [] none

/-- A minimal board. -/
def sampleBoard : Board :=
  { id := "42", name := "Road Map" }

/-! ## Claim theorems -/

/-- Helper for C1: the items loop consumes exactly the non-terminal
prefix plus the first terminal response, concatenating the item lists
in order. -/
theorem fetchItemsTrace_split (pre : List (Option ItemsPage)) (t : Option ItemsPage)
    (post : List (Option ItemsPage))
    (hpre : ∀ p ∈ pre, isTerminal p = false) (ht : isTerminal t = true) :
    fetchItemsTrace (pre ++ t :: post) =
      some ((pre.map pageItems).flatten ++ pageItems t, pre.length + 1) := by
  induction pre with
  | nil =>
    cases t with
    | none => simp [fetchItemsTrace, pageItems]
    | some pg =>
      have h : cursorDone pg.cursor = true := ht
      simp [fetchItemsTrace, h, pageItems]
  | cons p pre ih =>
    have hp := hpre p (List.mem_cons_self _ _)
    cases p with
    | none => simp [isTerminal] at hp
    | some pg =>
      have h : cursorDone pg.cursor = false := hp
      have ih' := ih (fun q hq => hpre q (List.mem_cons_of_mem _ hq))
      simp [fetchItemsTrace, h, ih', pageItems]

/-- C1: for every response trace consisting of non-terminal pages, then
a first terminal page (falsy cursor or missing board envelope), then
anything, `fetch_board` returns the board whose item list is the
in-order concatenation of the consumed pages' item lists (no sorting or
deduplication), and it issues exactly one items request per consumed
page — none after the terminal one. -/
theorem fetchBoard_pagination (board_id : Int) (b : Board) (bs : List Board)
    (pre : List (Option ItemsPage)) (t : Option ItemsPage) (post : List (Option ItemsPage))
    (hpre : ∀ p ∈ pre, isTerminal p = false) (ht : isTerminal t = true) :
    fetchBoardTrace board_id (b :: bs) (pre ++ t :: post) =
      some (.ok { b with items := (pre.map pageItems).flatten ++ pageItems t },
            pre.length + 1) := by
  simp [fetchBoardTrace, fetchItemsTrace_split pre t post hpre ht]

/-- C1 witness: the spec's mocked trace — pages `([i1, i2], "c1")` then
`([i3], "")` — yields `[i1, i2, i3]` after exactly 2 requests; a third
available response is never consumed. -/
theorem fetchBoard_pagination_witness :
    fetchBoardTrace 1 [sampleBoard]
        [some ⟨[sampleItem "i1", sampleItem "i2"], some "c1"⟩,
         some ⟨[sampleItem "i3"], some ""⟩,
         some ⟨[sampleItem "i4"], some "c3"⟩] =
      some (.ok { sampleBoard with
                    items := [sampleItem "i1", sampleItem "i2", sampleItem "i3"] }, 2) := by
  have h := fetchBoard_pagination 1 sampleBoard []
    [some ⟨[sampleItem "i1", sampleItem "i2"], some "c1"⟩]
    (some ⟨[sampleItem "i3"], some ""⟩)
    [some ⟨[sampleItem "i4"], some "c3"⟩]
    (by intro p hp; simp at hp; subst hp; rfl) rfl
  simpa using h

/-- C4: when the metadata phase returns zero boards, `fetch_board`
fails with the not-found error, and the items-request counter of the
returned trace is 0: no items-phase request is ever issued. -/
theorem fetchBoard_notFound (board_id : Int) (pages : List (Option ItemsPage)) :
    fetchBoardTrace board_id [] pages =
      some (.error s!"No board found for id {board_id}", 0) := rfl

/-- C4 witness: concrete instance at board id 7. -/
theorem fetchBoard_notFound_witness :
    fetchBoardTrace 7 [] [some ⟨[sampleItem "i1"], some "c1"⟩] =
      some (.error "No board found for id 7", 0) :=
  fetchBoard_notFound 7 [some ⟨[sampleItem "i1"], some "c1"⟩]

/-- Helper for C8: a trace of item-less pages accumulates no items. -/
theorem fetchItemsTrace_allEmpty (pages : List (Option ItemsPage))
    (hempty : ∀ p ∈ pages, pageItems p = []) (is : List Item) (n : Nat)
    (h : fetchItemsTrace pages = some (is, n)) : is = [] := by
  induction pages generalizing is n with
  | nil => simp [fetchItemsTrace] at h
  | cons p rest ih =>
    have hp := hempty p (List.mem_cons_self _ _)
    cases p with
    | none =>
      simp [fetchItemsTrace] at h
      exact h.1
    | some pg =>
      have hpg : pg.items = [] := hp
      cases hcb : cursorDone pg.cursor with
      | true =>
        simp [fetchItemsTrace, hcb] at h
        rw [← h.1, hpg]
      | false =>
        cases hrec : fetchItemsTrace rest with
        | none => simp [fetchItemsTrace, hcb, hrec] at h
        | some pr =>
          obtain ⟨is', n'⟩ := pr
          have h0 := ih (fun q hq => hempty q (List.mem_cons_of_mem _ hq)) is' n' hrec
          simp [fetchItemsTrace, hcb, hrec, h0, hpg] at h
          exact h.1

/-- C8: a fetch whose items phase terminates having seen zero items on
every page does not fail: it returns a valid board with an empty item
list (the zero-items condition is only a logged warning in the source). -/
theorem fetchBoard_zeroItems (board_id : Int) (b : Board) (bs : List Board)
    (pages : List (Option ItemsPage))
    (hempty : ∀ p ∈ pages, pageItems p = [])
    (hterm : (fetchItemsTrace pages).isSome = true) :
    ∃ n, fetchBoardTrace board_id (b :: bs) pages =
      some (.ok { b with items := [] }, n) := by
  rcases Option.isSome_iff_exists.mp hterm with ⟨⟨is, n⟩, h⟩
  refine ⟨n, ?_⟩
  have his : is = [] := fetchItemsTrace_allEmpty pages hempty is n h
  simp [fetchBoardTrace, h, his]

/-- C8 witness: one page with no items and an empty cursor yields a
valid board with no items after one request. -/
theorem fetchBoard_zeroItems_witness :
    ∃ n, fetchBoardTrace 3 [sampleBoard] [some ⟨[], some ""⟩] =
      some (.ok { sampleBoard with items := [] }, n) :=
  fetchBoard_zeroItems 3 sampleBoard [] [some ⟨[], some ""⟩]
    (by intro p hp; simp at hp; subst hp; rfl) rfl

/-- C3: the claim is the code's evident intent, but the compiled pattern
replaces an illegal character only when it is immediately followed by a
literal `]`: the board name `My/Board:Q1` is returned UNCHANGED (with
`/` and `:` intact), while `a:]b` shows the only situation in which a
replacement happens. -/
theorem sanitizeSheetTitle_missesIllegalChars :
    sanitizeSheetTitle "My/Board:Q1" = "My/Board:Q1" ∧
    workbookSheetTitle { sampleBoard with name := "My/Board:Q1" } = "My/Board:Q1" ∧
    sanitizeSheetTitle "a:]b" = "a_b" := by
  refine ⟨rfl, rfl, rfl⟩

/-- C5: the renderer is total by construction; a column whose type is
outside the recognized set passes the display text through unmodified
with no hint, and an absent column value renders as the empty string
with no hint for ANY column — recognized or not. -/
theorem render_passthrough (col : BoardColumn) (cv : ColumnValue)
    (h : col.type ∉ (["date", "numbers", "numeric", "checkbox", "people"] : List String)) :
    renderColumnValue col (some cv) = (.s cv.text, none) ∧
    ∀ anyCol : BoardColumn, renderColumnValue anyCol none = (.s "", none) := by
  simp only [List.mem_cons, List.not_mem_nil, or_false, not_or] at h
  obtain ⟨h1, h2, h3, h4, h5⟩ := h
  exact ⟨by simp [renderColumnValue, h1, h2, h3, h4, h5], fun _ => rfl⟩

/-- C5 witness: a `status`-typed column (not in the recognized set)
passes its text through; an absent value renders empty both for that
column and for a `date`-typed column (a recognized type). -/
theorem render_passthrough_witness :
    renderColumnValue ⟨"s1", "Status", "status"⟩
        (some { id := "s1", text := "Done", title := "Status", type := "status" }) =
      (.s "Done", none) ∧
    renderColumnValue ⟨"s1", "Status", "status"⟩ none = (.s "", none) ∧
    renderColumnValue ⟨"d9", "When", "date"⟩ none = (.s "", none) :=
  ⟨(render_passthrough ⟨"s1", "Status", "status"⟩
      { id := "s1", text := "Done", title := "Status", type := "status" } (by decide)).1,
   (render_passthrough ⟨"s1", "Status", "status"⟩
      { id := "s1", text := "Done", title := "Status", type := "status" } (by decide)).2
     ⟨"s1", "Status", "status"⟩,
   (render_passthrough ⟨"s1", "Status", "status"⟩
      { id := "s1", text := "Done", title := "Status", type := "status" } (by decide)).2
     ⟨"d9", "When", "date"⟩⟩

/-- C6: for a `numbers`/`numeric` column with a present value, the
renderer strips the commas from the display text and emits the parsed
float when `float()` succeeds, and falls back to the unchanged display
text (raising nothing) when it fails. -/
theorem render_numeric (col : BoardColumn) (cv : ColumnValue)
    (ht : col.type = "numbers" ∨ col.type = "numeric") :
    (∀ v, pyFloat (pyReplace1 cv.text ',' "") = some v →
        renderColumnValue col (some cv) = (.f v, none)) ∧
    (pyFloat (pyReplace1 cv.text ',' "") = none →
        renderColumnValue col (some cv) = (.s cv.text, none)) := by
  rcases ht with h | h <;>
    exact ⟨fun v hv => by simp [renderColumnValue, h, hv],
           fun hv => by simp [renderColumnValue, h, hv]⟩

/-- The numbers column and values used by the C6 witness. -/
def numbersColumn : BoardColumn := ⟨"n1", "Amount", "numbers"⟩

def cvAmount : ColumnValue := { id := "n1", text := "1,234.50", title := "Amount", type := "numbers" }

def cvNA : ColumnValue := { id := "n1", text := "N/A", title := "Amount", type := "numbers" }

/-- C6 witness: display text `"1,234.50"` renders as the float 1234.5
(the rational `2469/2`), and the malformed `"N/A"` falls back to itself. -/
theorem render_numeric_witness :
    renderColumnValue numbersColumn (some cvAmount) = (.f (.finite (mkRat 2469 2)), none) ∧
    renderColumnValue numbersColumn (some cvNA) = (.s "N/A", none) :=
  ⟨(render_numeric numbersColumn cvAmount (Or.inl rfl)).1 _ (by decide),
   (render_numeric numbersColumn cvNA (Or.inl rfl)).2 (by decide)⟩

/-- C7: for a `checkbox` column with a present value, a boolean decoded
directly, or found under a boolean `checked` field of a decoded object,
is emitted as the cell value; in every other case (decode failure —
which falls back to the text — non-boolean `checked`, non-object
non-boolean decode) the display text is returned, possibly empty. -/
theorem render_checkbox (col : BoardColumn) (cv : ColumnValue) (ht : col.type = "checkbox") :
    (∀ b : Bool, cv.parsed_value = .bool b →
        renderColumnValue col (some cv) = (.b b, none)) ∧
    (∀ kvs b, cv.parsed_value = .dict kvs →
        PyVal.dictGet kvs "checked" = some (.bool b) →
        renderColumnValue col (some cv) = (.b b, none)) ∧
    ((∀ b : Bool, cv.parsed_value ≠ .bool b) →
     (∀ kvs b, cv.parsed_value = .dict kvs →
        PyVal.dictGet kvs "checked" ≠ some (.bool b)) →
        renderColumnValue col (some cv) = (.s cv.text, none)) := by
  refine ⟨fun b hb => by simp [renderColumnValue, ht, hb],
          fun kvs b h1 h2 => by simp [renderColumnValue, ht, h1, h2],
          fun h1 h2 => ?_⟩
  cases hv : cv.parsed_value with
  | bool b => exact absurd hv (h1 b)
  | dict kvs =>
    cases hd : PyVal.dictGet kvs "checked" with
    | none => simp [renderColumnValue, ht, hv, hd]
    | some v =>
      cases v with
      | bool b => exact absurd hd (h2 kvs b hv)
      | null => simp [renderColumnValue, ht, hv, hd]
      | num q => simp [renderColumnValue, ht, hv, hd]
      | str s => simp [renderColumnValue, ht, hv, hd]
      | list xs => simp [renderColumnValue, ht, hv, hd]
      | dict kvs2 => simp [renderColumnValue, ht, hv, hd]
  | null => simp [renderColumnValue, ht, hv]
  | num q => simp [renderColumnValue, ht, hv]
  | str s => simp [renderColumnValue, ht, hv]
  | list xs => simp [renderColumnValue, ht, hv]

/-- The checkbox column and values used by the C7 witness. -/
def checkboxColumn : BoardColumn := ⟨"c1", "Done", "checkbox"⟩

def cvCheckTrue : ColumnValue :=
  { id := "c1", text := "v1", title := "Done", type := "checkbox", value := some "true" }

def cvCheckNested : ColumnValue :=
  { id := "c1", text := "v2", title := "Done", type := "checkbox",
    value := some "\x7b\"checked\": false\x7d" }

def cvCheckOdd : ColumnValue :=
  { id := "c1", text := "v3", title := "Done", type := "checkbox",
    value := some "\x7b\"checked\": 1\x7d" }

/-- C7 witness: a bare `true` payload, a nested `checked: false`
payload, and a non-boolean `checked` payload falling back to text. -/
theorem render_checkbox_witness :
    renderColumnValue checkboxColumn (some cvCheckTrue) = (.b true, none) ∧
    renderColumnValue checkboxColumn (some cvCheckNested) = (.b false, none) ∧
    renderColumnValue checkboxColumn (some cvCheckOdd) = (.s "v3", none) := by
  refine ⟨(render_checkbox checkboxColumn cvCheckTrue rfl).1 true rfl,
          (render_checkbox checkboxColumn cvCheckNested rfl).2.1
            [("checked", .bool false)] false rfl rfl,
          (render_checkbox checkboxColumn cvCheckOdd rfl).2.2 ?_ ?_⟩
  · intro b hb
    rw [show cvCheckOdd.parsed_value = PyVal.dict [("checked", PyVal.num (mkRat 1 1))] from rfl] at hb
    simp at hb
  · intro kvs b hk hd
    rw [show cvCheckOdd.parsed_value = PyVal.dict [("checked", PyVal.num (mkRat 1 1))] from rfl] at hk
    injection hk with h
    subst h
    rw [show PyVal.dictGet [("checked", PyVal.num (mkRat 1 1))] "checked" =
          some (PyVal.num (mkRat 1 1)) from rfl] at hd
    simp at hd

/-- The date column and values used by the C2 theorems. -/
def dateColumn : BoardColumn := ⟨"d1", "Due", "date"⟩

def cvBadIso : ColumnValue :=
  { id := "d1", text := "2024-01-15", title := "Due", type := "date",
    value := some "\x7b\"date\": \"not a date\"\x7d" }

def cvGoodIso : ColumnValue :=
  { id := "d1", text := "whatever", title := "Due", type := "date",
    value := some "\x7b\"date\": \"2024-01-15\"\x7d" }

def cvNoDate : ColumnValue :=
  { id := "d1", text := "nope", title := "Due", type := "date", value := none }

/-- C2 counterexample: a date payload whose `date` field fails ISO
parsing while the display text is itself a parseable date. The claim
says the display text would then be parsed and returned with hint
"date"; the code instead returns the display text as plain text with no
hint — the second conjunct shows the free-form parser does accept that
very text. -/
theorem render_date_counterexample :
    renderColumnValue dateColumn (some cvBadIso) = (.s "2024-01-15", none) ∧
    dateutilParse cvBadIso.text = some ⟨2024, 1, 15, 0, 0, 0⟩ :=
  ⟨rfl, rfl⟩

/-- C2 (amended): whenever `_parse_date` succeeds the renderer returns
the parsed date with hint "date", and whenever it fails the display
text is returned as plain text with no hint; but when the structured
payload decodes to an object with a truthy `date` field whose ISO parse
fails, `_parse_date` fails immediately — the free-form parse of the
display text is attempted only when no truthy structured `date` field
is present. -/
theorem render_date_amended (col : BoardColumn) (cv : ColumnValue) (ht : col.type = "date") :
    (∀ d, parseDate cv = some d →
        renderColumnValue col (some cv) = (.dt d, some "date")) ∧
    (parseDate cv = none →
        renderColumnValue col (some cv) = (.s cv.text, none)) ∧
    (∀ kvs ds, cv.parsed_value = .dict kvs →
        PyVal.dictGet kvs "date" = some (.str ds) → ds ≠ "" →
        isoParseStr ds = none → parseDate cv = none) := by
  refine ⟨fun d hd => by simp [renderColumnValue, ht, hd],
          fun hd => by simp [renderColumnValue, ht, hd],
          fun kvs ds h1 h2 h3 h4 => ?_⟩
  simp [parseDate, h1, h2, PyVal.truthy, h3, h4]

/-- C2 witness for the amended claim: a structured ISO success, a
fallback free-form failure path, and the corrected no-text-parse path
at `cvBadIso`. -/
theorem render_date_amended_witness :
    renderColumnValue dateColumn (some cvGoodIso) = (.dt ⟨2024, 1, 15, 0, 0, 0⟩, some "date") ∧
    renderColumnValue dateColumn (some cvNoDate) = (.s "nope", none) ∧
    parseDate cvBadIso = none :=
  ⟨(render_date_amended dateColumn cvGoodIso rfl).1 ⟨2024, 1, 15, 0, 0, 0⟩ rfl,
   (render_date_amended dateColumn cvNoDate rfl).2.1 rfl,
   (render_date_amended dateColumn cvBadIso rfl).2.2 [("date", .str "not a date")]
     "not a date" rfl rfl (by decide) rfl⟩

/-- C9: the workbook's two sheets are mutually consistent — the summary
"Item Count" equals the items sheet's row count minus its single header
row, and "Group Count"/"Column Count" equal the lengths of the group
list and of the column list used to lay out the items sheet. -/
theorem workbook_summary_consistent (b : Board) (exportedAt : DateTime) :
    summaryValue b exportedAt "Item Count" = some (.n ((itemsSheetRows b).length - 1)) ∧
    summaryValue b exportedAt "Group Count" = some (.n b.groups.length) ∧
    summaryValue b exportedAt "Column Count" = some (.n b.ordered_columns.length) := by
  refine ⟨?_, rfl, rfl⟩
  have hlen : (itemsSheetRows b).length - 1 = b.items.length := by
    simp [itemsSheetRows]
  rw [hlen]
  rfl

/-- A 50-character header title and a 49-character cell text (display
width 51) for the C10 counterexample. -/
def longHeader : String := String.mk (List.replicate 50 'H')

def longCellText : String := String.mk (List.replicate 49 'y')

/-- C10 counterexample: with a header longer than the 48 cap, the first
item row whose display width exceeds the current width CLAMPS the
column width down to 48 — the width sequence 50, 48 is not
non-decreasing, and the final width is not above the cap despite the
long header. -/
theorem widthMonotone_counterexample :
    widthSeq longHeader [calcDisplayWidthStr longCellText] = [50, 48] ∧
    initColWidth longHeader = 50 ∧
    ¬ List.Chain' (· ≤ ·) (widthSeq longHeader [calcDisplayWidthStr longCellText]) := by
  refine ⟨rfl, rfl, ?_⟩
  intro hchain
  rw [show widthSeq longHeader [calcDisplayWidthStr longCellText] = [50, 48] from rfl] at hchain
  have := List.chain'_cons.mp hchain
  omega

/-- Helper for C10: the head of a `scanl` is its initial value. -/
theorem scanl_head (f : Nat → Nat → Nat) (b : Nat) (l : List Nat) :
    (List.scanl f b l).head? = some b := by
  cases l <;> simp

/-- Helper for C10: starting at or below the 48 cap, the width sequence
is non-decreasing and stays at or below the cap. -/
theorem widthScanlInv (ds : List Nat) : ∀ w, w ≤ 48 →
    List.Chain' (· ≤ ·) (List.scanl widthStep w ds) ∧
    ∀ x ∈ List.scanl widthStep w ds, x ≤ 48 := by
  induction ds with
  | nil =>
    intro w hw
    constructor
    · simp
    · intro x hx
      simp at hx
      omega
  | cons d ds ih =>
    intro w hw
    have h48 : widthStep w d ≤ 48 := by
      unfold widthStep
      split
      · exact Nat.min_le_right _ _
      · exact hw
    have hmo : w ≤ widthStep w d := by
      unfold widthStep
      split
      · next hgt => exact Nat.le_min.mpr ⟨Nat.le_of_lt hgt, hw⟩
      · exact Nat.le_refl w
    obtain ⟨hc, hb⟩ := ih (widthStep w d) h48
    constructor
    · rw [List.scanl_cons, List.singleton_append, List.chain'_cons']
      refine ⟨fun y hy => ?_, hc⟩
      rw [scanl_head] at hy
      simp at hy
      omega
    · intro x hx
      rw [List.scanl_cons, List.singleton_append] at hx
      rcases List.mem_cons.mp hx with h | h
      · subst h; exact hw
      · exact hb x h

/-- C10 (amended): every width assigned during item-row processing is at
most 48; the column width sequence is monotonically non-decreasing (and
capped) whenever the header-derived initial width `max(header, 12)` is
at most 48; the header width itself is uncapped, so a header longer
than 48 characters starts the column above the cap — but that width is
not preserved by later item rows (see the counterexample). -/
theorem widthStep_amended (h : String) (ds : List Nat) :
    (∀ w d, w < d → widthStep w d ≤ 48) ∧
    (initColWidth h ≤ 48 →
      List.Chain' (· ≤ ·) (widthSeq h ds) ∧ ∀ w ∈ widthSeq h ds, w ≤ 48) ∧
    (48 < h.length → 48 < initColWidth h) := by
  refine ⟨fun w d hwd => ?_, fun hinit => ?_, fun hl => ?_⟩
  · unfold widthStep
    rw [if_pos hwd]
    exact Nat.min_le_right _ _
  · exact widthScanlInv ds (initColWidth h) hinit
  · exact lt_of_lt_of_le hl (le_max_left _ _)

/-- C10 witness: a short header stays monotone and capped; a 50-char
header starts above the cap; a width increase assigned by an item row
is capped at 48. -/
theorem widthStep_amended_witness :
    widthStep 20 60 ≤ 48 ∧
    List.Chain' (· ≤ ·) (widthSeq "Due" [20, 51, 10]) ∧
    48 < initColWidth longHeader :=
  ⟨(widthStep_amended "Due" []).1 20 60 (by decide),
   ((widthStep_amended "Due" [20, 51, 10]).2.1 (by decide)).1,
   (widthStep_amended longHeader []).2.2 (by decide)⟩
